import Mathlib

/-!
Verification of the authentication core of the express-authorization
backend: the credential hasher, the token service (src/services/JwtService.js),
the authorization gate and request validator (src/unnamed/part_005), the
signup/signin/logout controllers (src/controllers/user.controller.js), and
the user router (src/unnamed/part_000).

Strings that flow through the system are modelled by the inductive `SVal`:
an ordinary string, a signed token string produced by the token service, or
a bcrypt digest string.  Distinct constructors model distinct strings, which
is faithful because a bcrypt digest always carries the "$2a$..." marker and
a signed token is a dot-separated base64 triple, shapes that ordinary
strings and each other do not collide with (except with negligible
probability, per the salted-hash contract of section 4.1 of the spec).
-/

/-- A string value in the system: an ordinary string, a signed token
(the jsonwebtoken library is external, so the token string is modelled
from the spec, section 4.2, as an opaque string determined by its payload
fields, issued-at, expiry and signing key), or a bcrypt digest (the
bcryptjs library is external; modelled from the spec, section 4.1, as a
salted one-way transform identified by its cost and preimage). -/
inductive SVal : Type where
  | str (s : String)
  | tok (id full_name email : String) (password : SVal) (is_active : Bool)
        (iat exp : Nat) (key : String)
  | digest (cost : Nat) (plain : SVal)
deriving DecidableEq

/-- The payload object built by the controllers and embedded in tokens:
`{ id, full_name, email, password, is_active }` as in
src/controllers/user.controller.js lines 59-65 and 127-133.  The password
field holds the plaintext at signup and the stored digest at signin, so it
is an `SVal`. -/
structure JwtPayload where
  id : String
  full_name : String
  email : String
  password : SVal
  is_active : Bool
deriving DecidableEq

/-- Errors raised by jwt.verify in the jsonwebtoken library:
bad signature, past expiry, or an unparsable token.  Modelled from the
spec, section 4.2. -/
inductive JwtError : Type where
  | invalidSignature
  | expired
  | malformed
deriving DecidableEq

/-- `jwt.sign(payload, key, { expiresIn })` called at the current time
`now`: produces a token whose expiry is issued-at plus the lifetime.
Modelled from the spec, section 4.2 and the token payload invariant of
section 3. -/
def jwtSign (p : JwtPayload) (key : String) (iat exp : Nat) : SVal :=
  SVal.tok p.id p.full_name p.email p.password p.is_active iat exp key

/-- `jwt.verify(token, key)` evaluated at time `now`.  Modelled from the
spec, section 4.2: signature is checked before any claim is trusted;
verification fails with `expired` once the current time has reached the
expiry. -/
def jwtVerify (t : SVal) (key : String) (now : Nat) : Except JwtError JwtPayload :=
  match t with
  | SVal.tok id fn em pw act _iat exp k =>
      if k ≠ key then Except.error JwtError.invalidSignature
      else if exp ≤ now then Except.error JwtError.expired
      else Except.ok ⟨id, fn, em, pw, act⟩
  | _ => Except.error JwtError.malformed

/-- `bcrypt.hashSync(plain, cost)`.  Modelled from the spec, section 4.1:
the bcryptjs library is external; its digest is a one-way value determined
by the cost factor and the preimage. -/
def bcryptHashSync (plain : SVal) (cost : Nat) : SVal :=
  SVal.digest cost plain

/-- `bcrypt.compareSync(plain, stored)`.  Modelled from the spec,
section 4.1: true exactly when `stored` is a digest of `plain`; false on
any mismatch, never failing on well-formed inputs. -/
def bcryptCompareSync (plain stored : SVal) : Bool :=
  match stored with
  | SVal.digest _ p => p == plain
  | _ => false

/-- The JwtService instance (src/services/JwtService.js): constructed once
with a token key and token lifetime from configuration. -/
structure JwtService where
  tokenKey : String
  tokenTime : Nat

/-- `generateTokens(payload)` (src/services/JwtService.js lines 33-41):
signs the payload with the service key, expiring after the service
lifetime; returns `{ token }`. -/
def JwtService.generateTokens (svc : JwtService) (payload : JwtPayload) (now : Nat) : SVal :=
  jwtSign payload svc.tokenKey now (now + svc.tokenTime)

/-- `verifyAccess(token)` (src/services/JwtService.js lines 28-31): the
extra arguments passed by callers are ignored; the service verifies with
its own key. -/
def JwtService.verifyAccess (svc : JwtService) (t : SVal) (now : Nat) :
    Except JwtError JwtPayload :=
  jwtVerify t svc.tokenKey now

/-- ASCII lowercasing of a string (the `lowercase: true` mongoose setter
and the case-insensitive casts below), written over the character list so
that it evaluates by kernel reduction. -/
def lowerStr (s : String) : String :=
  ⟨s.data.map Char.toLower⟩

/-- Split a character list on a separator (used to model
`String.prototype.split` of the joi email check), written by structural
recursion so that it evaluates by kernel reduction. -/
def splitCharsAux (sep : Char) : List Char → List Char → List (List Char)
  | [], acc => [acc.reverse]
  | c :: cs, acc =>
      if c == sep then acc.reverse :: splitCharsAux sep cs []
      else splitCharsAux sep cs (c :: acc)

/-- See `splitCharsAux`. -/
def splitChars (sep : Char) (l : List Char) : List (List Char) :=
  splitCharsAux sep l []

/-- Whitespace trimming (the joi `.trim()` conversion), written over the
character list so that it evaluates by kernel reduction. -/
def trimStr (s : String) : String :=
  ⟨((s.data.dropWhile Char.isWhitespace).reverse.dropWhile
      Char.isWhitespace).reverse⟩

/-- A persisted user document (src/models/User.model.js): the mongoose
schema lowercases the email on write (`lowercase: true`), the password
field stores the bcrypt digest, and the token field stores the bcrypt
digest of the last issued token (absent until first issuance). -/
structure UserRecord where
  _id : String
  full_name : String
  email : String
  password : SVal
  is_active : Bool
  token : Option SVal
deriving DecidableEq

/-- `User.findOne({ email })`: mongoose applies the schema setters
(here `lowercase`) to the query filter, so the lookup compares the stored
(lowercased) email against the lowercased query value. -/
def findOneEmail (db : List UserRecord) (email : String) : Option UserRecord :=
  db.find? (fun u => u.email == lowerStr email)

/-- Write back a fetched-and-modified document (`await user.save()`):
the stored document with this id is replaced.  Document ids are unique
keys (section 3 of the spec). -/
def saveUser (db : List UserRecord) (id : String) (f : UserRecord → UserRecord) :
    List UserRecord :=
  db.map (fun u => if u._id == id then f u else u)

/-- The body of a signup request after validation: `full_name`, `email`,
`password` strings and the `is_active` boolean (defaulted by the
validator when absent). -/
structure SignupBody where
  full_name : String
  email : String
  password : String
  is_active : Bool
deriving DecidableEq

/-- The body of a signin request after validation. -/
structure SigninBody where
  email : String
  password : String
deriving DecidableEq

/-- Outcome of the signUp controller: 403 `{message: "Gmail cannot be
duplicated"}` on a duplicate email, otherwise 200 with the response
payload and token (the token is also set as the session cookie). -/
inductive SignUpResult : Type where
  | conflict
  | ok (user : JwtPayload) (token : SVal)
deriving DecidableEq

/-- HTTP status sent for each signUp outcome
(src/controllers/user.controller.js lines 45 and 80). -/
def SignUpResult.status : SignUpResult → Nat
  | SignUpResult.conflict => 403
  | SignUpResult.ok _ _ => 200

/-- The signUp controller (src/controllers/user.controller.js lines
38-86).  `freshId` is the `_id` minted by the store for the new document;
`svc` is the JwtService instance; `now` is the issuing time.  The two
`user.save()` calls net to inserting the document with the hashed token
already set. -/
def signUp (db : List UserRecord) (body : SignupBody) (freshId : String)
    (svc : JwtService) (now : Nat) : List UserRecord × SignUpResult :=
  match findOneEmail db body.email with
  | some _ => (db, SignUpResult.conflict)
  | none =>
    let hashedPassword := bcryptHashSync (SVal.str body.password) 7
    let payload : JwtPayload :=
      { id := freshId, full_name := body.full_name, email := body.email,
        password := SVal.str body.password, is_active := body.is_active }
    let token := svc.generateTokens payload now
    let hashedToken := bcryptHashSync token 7
    let user : UserRecord :=
      { _id := freshId, full_name := body.full_name,
        email := lowerStr body.email, password := hashedPassword,
        is_active := true, token := some hashedToken }
    (db ++ [user], SignUpResult.ok payload token)

/-- Outcome of the signIn controller: 404 when no record matches the
email, 400 when the password digest does not verify, otherwise 200 with
the response payload and token (also set as the session cookie). -/
inductive SignInResult : Type where
  | notFound
  | badPassword
  | ok (user : JwtPayload) (token : SVal)
deriving DecidableEq

/-- HTTP status sent for each signIn outcome
(src/controllers/user.controller.js lines 117, 123 and 148). -/
def SignInResult.status : SignInResult → Nat
  | SignInResult.notFound => 404
  | SignInResult.badPassword => 400
  | SignInResult.ok _ _ => 200

/-- The signIn controller (src/controllers/user.controller.js lines
111-154): look up by email, compare the password against the stored
digest, build the payload from the stored record (with `is_active: true`
verbatim), issue a token, store its bcrypt digest on the record. -/
def signIn (db : List UserRecord) (body : SigninBody)
    (svc : JwtService) (now : Nat) : List UserRecord × SignInResult :=
  match findOneEmail db body.email with
  | none => (db, SignInResult.notFound)
  | some user =>
    if bcryptCompareSync (SVal.str body.password) user.password then
      let payload : JwtPayload :=
        { id := user._id, full_name := user.full_name, email := user.email,
          password := user.password, is_active := true }
      let token := svc.generateTokens payload now
      let hashedToken := bcryptHashSync token 7
      (saveUser db user._id (fun u => { u with token := some hashedToken }),
       SignInResult.ok payload token)
    else (db, SignInResult.badPassword)

/-- Outcome of the logout controller: 400 `{message: "Token is does
exists"}` when the cookie is absent/empty or when no record's stored
token field equals the presented cookie value; otherwise 200 with the
updated record (and the cookie cleared). -/
inductive LogoutResult : Type where
  | missingToken
  | invalidToken
  | ok (user : UserRecord)
deriving DecidableEq

/-- HTTP status sent for each logout outcome
(src/controllers/user.controller.js lines 160, 170 and 175). -/
def LogoutResult.status : LogoutResult → Nat
  | LogoutResult.missingToken => 400
  | LogoutResult.invalidToken => 400
  | LogoutResult.ok _ => 200

/-- JavaScript falsiness of an optional string value (such as `req.cookies.token` or the second header word):
absent or the empty string. -/
def jsFalsy : Option SVal → Bool
  | none => true
  | some (SVal.str s) => s == ""
  | some _ => false

/-- The logout controller (src/controllers/user.controller.js lines
156-183): reject a falsy cookie; then
`User.findOneAndUpdate({ token }, { token: "", is_active: false })`
matches a record whose stored token field EQUALS the raw presented
cookie value (no hashing before the lookup), updates it and returns the
updated document; reject when no record matches. -/
def logout (db : List UserRecord) (cookieToken : Option SVal) :
    List UserRecord × LogoutResult :=
  if jsFalsy cookieToken then (db, LogoutResult.missingToken)
  else
    match cookieToken with
    | none => (db, LogoutResult.missingToken)
    | some t =>
      match db.find? (fun u => u.token == some t) with
      | none => (db, LogoutResult.invalidToken)
      | some u =>
        let updated := { u with token := some (SVal.str ""), is_active := false }
        (saveUser db u._id
           (fun v => { v with token := some (SVal.str ""), is_active := false }),
         LogoutResult.ok updated)

/-- A JavaScript runtime error raised inside the middleware try block. -/
inductive JsError : Type where
  | referenceError (name : String)
deriving DecidableEq

/-- The read of the identifier `err` in
`res.status(400).json({ friendlyMsg: err.message })` (src/unnamed/part_005
line 54 of the userPolice middleware).  The variables assigned by the
destructuring on line 49 are named `error` and `decodedData`; `err` is
never declared or assigned anywhere in the module, so evaluating it in
sloppy-mode JavaScript raises a ReferenceError. -/
def readErrVar : Except JsError SVal :=
  Except.error (JsError.referenceError "err")

/-- A request as seen by the userPolice middleware: the HTTP method, the
`authorization` header and the `:id` path parameter.  The header is
modelled after `authorization.split(" ")` as the list of its
space-separated words (`none` when the header is absent or empty, both
falsy); each word is an `SVal` since the second word may be a token
string. -/
structure AuthRequest where
  method : String
  authorization : Option (List SVal)
  paramsId : String
deriving DecidableEq

/-- What the gate did with a request: the HTTP status it responded with
(0 when it sent nothing and fell through), the `message` field of the
response body, the identity attached as `req.user`, and whether `next()`
was invoked. -/
structure GateResult where
  status : Nat
  message : String
  attachedUser : Option JwtPayload
  nextInvoked : Bool
deriving DecidableEq

/-- `jwt.verifyAccess(token, ...)` as called on src/unnamed/part_005
lines 49-51: when the header had no second word the `token` variable is
undefined and jwt.verify raises the malformed-token error ("jwt must be
provided"), surfaced by the `to` helper as the error component. -/
def verifyTokenVar (token? : Option SVal) (svc : JwtService) (now : Nat) :
    Except JwtError JwtPayload :=
  match token? with
  | none => Except.error JwtError.malformed
  | some t => svc.verifyAccess t now

/-- The body of the try block of the userPolice middleware
(src/unnamed/part_005 lines 36-66), returning the response or raising a
JsError.  `optionsNext` records whether the OPTIONS branch before the try
block already invoked `next()` (it does not return, so execution falls
through).  Follows the source line by line: absent header check, word
splitting, the `!token && bearer === "Bearer"` check, verification, the
faulty 400 branch that reads `err`, the `req.user` attachment, and the
ownership comparison. -/
def userPoliceTry (req : AuthRequest) (svc : JwtService) (now : Nat)
    (optionsNext : Bool) : Except JsError GateResult :=
  match req.authorization with
  | none => Except.ok ⟨403, "User is not registered", none, optionsNext⟩
  | some words =>
    if jsFalsy words[1]? && (words.headD (SVal.str "") == SVal.str "Bearer") then
      Except.ok ⟨403, "User is not registered", none, optionsNext⟩
    else
      match verifyTokenVar words[1]? svc now with
      | Except.error _ =>
          (readErrVar).bind (fun _errMsg =>
            Except.ok ⟨400, "", none, optionsNext⟩)
      | Except.ok decodedData =>
          if decodedData.id ≠ req.paramsId then
            Except.ok ⟨403, "Error: the JWT is not owned by the admin",
                       some decodedData, optionsNext⟩
          else
            Except.ok ⟨0, "", some decodedData, true⟩

/-- The userPolice middleware (src/unnamed/part_005 lines 29-70): the
OPTIONS pre-check, the try block, and the catch that answers 403
`{message: "User is unauthorized"}` to any raised error. -/
def userPolice (req : AuthRequest) (svc : JwtService) (now : Nat) : GateResult :=
  match userPoliceTry req svc now (req.method == "OPTIONS") with
  | Except.ok r => r
  | Except.error _ =>
      ⟨403, "User is unauthorized", none, req.method == "OPTIONS"⟩

/-- A JSON value in a request body. -/
inductive JVal : Type where
  | str (s : String)
  | bool (b : Bool)
  | num (n : Int)
deriving DecidableEq

/-- A request body: a JSON object as an association list with distinct
keys (JSON parsing keeps one value per key). -/
abbrev JBody : Type := List (String × JVal)

/-- Look up a key in a body. -/
def lookupJ (body : JBody) (k : String) : Option JVal :=
  match body.find? (fun kv => kv.1 == k) with
  | some kv => some kv.2
  | none => none

/-- The base type of a Joi field: `Joi.string()` or `Joi.boolean()`
(the only two used by the schemas under src/validations and
src/unnamed/part_007). -/
inductive JType : Type where
  | string
  | boolean
deriving DecidableEq

/-- One field of a Joi object schema: its key, base type, and the
modifiers used by this repository: `.required()`, `.email()`, `.trim()`
and `.default(v)`. -/
structure JoiField where
  name : String
  jtype : JType
  required : Bool
  emailFmt : Bool
  trimmed : Bool
  dflt : Option JVal
deriving DecidableEq

/-- A Joi object schema: the declared fields in order. -/
abbrev JoiSchema : Type := List JoiField

/-- A Joi validation failure (`error.isJoi` is true for all of them). -/
inductive JoiError : Type where
  | unknownKey (k : String)
  | missingRequired (k : String)
  | wrongType (k : String)
  | emptyString (k : String)
  | badEmail (k : String)
deriving DecidableEq

/-- `error.isJoi` for the errors produced by `validateAsync`. -/
def JoiError.isJoi : JoiError → Bool := fun _ => true

/-- The joi email shape check.  Modelled from the spec, section 4.4 (the
joi library is external): one `@` separating a non-empty local part from
a domain of at least two non-empty dot-separated labels. -/
def emailOk (s : String) : Bool :=
  match splitChars '@' s.data with
  | [local_, domain] =>
      !local_.isEmpty && decide ((splitChars '.' domain).length ≥ 2)
        && (splitChars '.' domain).all (fun l => !l.isEmpty)
  | _ => false

/-- Validate and convert one present field value, joi-style with the
default `convert: true`: strings must be strings (trimmed first when
`.trim()` is set), may not be empty, and must pass the email shape check
when `.email()` is set; booleans accept a boolean or the strings
"true"/"false" (case-insensitive), which are cast. -/
def convertField (f : JoiField) (v : JVal) : Except JoiError JVal :=
  match f.jtype, v with
  | JType.string, JVal.str s =>
      let s1 := if f.trimmed then trimStr s else s
      if s1 = "" then Except.error (JoiError.emptyString f.name)
      else if f.emailFmt && !emailOk s1 then Except.error (JoiError.badEmail f.name)
      else Except.ok (JVal.str s1)
  | JType.string, _ => Except.error (JoiError.wrongType f.name)
  | JType.boolean, JVal.bool b => Except.ok (JVal.bool b)
  | JType.boolean, JVal.str s =>
      if lowerStr s = "true" then Except.ok (JVal.bool true)
      else if lowerStr s = "false" then Except.ok (JVal.bool false)
      else Except.error (JoiError.wrongType f.name)
  | JType.boolean, _ => Except.error (JoiError.wrongType f.name)

/-- Process the declared fields in order against the body: a present
value is converted, an absent value falls back to the default when one
is declared, a missing required value fails, and an absent optional
value is simply omitted from the output. -/
def validateFields (fields : List JoiField) (body : JBody) :
    Except JoiError JBody :=
  match fields with
  | [] => Except.ok []
  | f :: rest =>
    match lookupJ body f.name with
    | some v =>
        (convertField f v).bind (fun v1 =>
          (validateFields rest body).map (fun tail => (f.name, v1) :: tail))
    | none =>
        match f.dflt with
        | some d =>
            (validateFields rest body).map (fun tail => (f.name, d) :: tail)
        | none =>
            if f.required then Except.error (JoiError.missingRequired f.name)
            else validateFields rest body

/-- `schema.validateAsync(body)` on a Joi object schema: unknown keys are
rejected (joi strips nothing by default), then the declared fields are
processed in order. -/
def joiValidate (schema : JoiSchema) (body : JBody) : Except JoiError JBody :=
  match body.find? (fun kv => !(schema.map (fun f => f.name)).contains kv.1) with
  | some kv => Except.error (JoiError.unknownKey kv.1)
  | none => validateFields schema body

/-- The signup schema (src/unnamed/part_007): full_name string required,
email string email required, password string required, is_active boolean
defaulting to false. -/
def signupSchema : JoiSchema :=
  [ ⟨"full_name", JType.string, true, false, false, none⟩,
    ⟨"email", JType.string, true, true, false, none⟩,
    ⟨"password", JType.string, true, false, false, none⟩,
    ⟨"is_active", JType.boolean, false, false, false, some (JVal.bool false)⟩ ]

/-- Modelled from the spec: the login schema (signin.validator.js is
required by the registry in src/unnamed/part_006 but is not under src);
per sections 4.4 and 6 the signin body is `{email, password}` with the
email shape checked. -/
def loginSchema : JoiSchema :=
  [ ⟨"email", JType.string, true, true, false, none⟩,
    ⟨"password", JType.string, true, false, false, none⟩ ]

/-- The update schema (src/validations/update.validator.js): all fields
optional. -/
def updateSchema : JoiSchema :=
  [ ⟨"full_name", JType.string, false, false, false, none⟩,
    ⟨"email", JType.string, false, true, false, none⟩,
    ⟨"password", JType.string, false, false, false, none⟩,
    ⟨"is_active", JType.boolean, false, false, false, none⟩ ]

/-- The createProduct schema
(src/validations/createProduct.validator.js). -/
def createProductSchema : JoiSchema :=
  [ ⟨"title", JType.string, true, false, true, none⟩,
    ⟨"price", JType.string, true, false, false, none⟩,
    ⟨"description", JType.string, false, false, false, none⟩ ]

/-- The updateProduct schema
(src/validations/updateProduct.validator.js). -/
def updateProductSchema : JoiSchema :=
  [ ⟨"title", JType.string, false, false, true, none⟩,
    ⟨"price", JType.string, false, false, false, none⟩,
    ⟨"description", JType.string, false, false, false, none⟩ ]

/-- The validator registry (src/unnamed/part_006). -/
def Validators : List (String × JoiSchema) :=
  [ ("signup", signupSchema),
    ("login", loginSchema),
    ("update", updateSchema),
    ("createProduct", createProductSchema),
    ("updateProduct", updateProductSchema) ]

/-- Registry lookup (`Validators.hasOwnProperty` / `Validators[name]`). -/
def lookupSchema (name : String) : Option JoiSchema :=
  match Validators.find? (fun kv => kv.1 == name) with
  | some kv => some kv.2
  | none => none

/-- What the validator middleware did with a request: a 400 response
with `friendlyMsg: "Validation error"` carrying the joi error, a 500
response for a non-joi error, or `next()` invoked with `req.body`
replaced by the validated value. -/
inductive VmResult : Type where
  | validationError (e : JoiError)
  | internal
  | next (body : JBody)
deriving DecidableEq

/-- HTTP status sent for each validator middleware outcome (0 when it
sent nothing and fell through to the handler). -/
def VmResult.status : VmResult → Nat
  | VmResult.validationError _ => 400
  | VmResult.internal => 500
  | VmResult.next _ => 0

/-- The validator middleware factory (src/unnamed/part_005 lines 3-25):
an unregistered name throws at route-construction time (`none` here); a
registered name yields the middleware that runs `validateAsync`, maps a
joi error to 400, any other error to 500, and otherwise replaces
`req.body` and invokes `next()`. -/
def validatorMiddleware (name : String) (body : JBody) : Option VmResult :=
  match lookupSchema name with
  | none => none
  | some schema =>
    match joiValidate schema body with
    | Except.error e =>
        some (if e.isJoi then VmResult.validationError e else VmResult.internal)
    | Except.ok v => some (VmResult.next v)

/-- Conformance of a body to a schema, the shape the handler may assume:
no unknown keys, every required field present, and every present field
well-typed (non-empty validated string with the email shape when
declared, or a boolean). -/
def welltypedField (f : JoiField) (v : JVal) : Bool :=
  match f.jtype, v with
  | JType.string, JVal.str s => s != "" && (!f.emailFmt || emailOk s)
  | JType.boolean, JVal.bool _ => true
  | _, _ => false

/-- See `welltypedField`. -/
def conformsTo (schema : JoiSchema) (body : JBody) : Bool :=
  body.all (fun kv => (schema.map (fun f => f.name)).contains kv.1)
    && schema.all (fun f =>
         match lookupJ body f.name with
         | some v => welltypedField f v
         | none => !f.required)

/-- The service configuration used in the concrete session scenario of
section 8 of the spec. -/
def scenarioSvc : JwtService := ⟨"secret", 100⟩

/-- The token issued by the scenario signup at time 0. -/
def scenarioToken1 : SVal :=
  SVal.tok "id1" "A" "a@x.com" (SVal.str "p1") false 0 100 "secret"

/-- The stored record after the scenario signup: password and token are
bcrypt digests, the active flag is persisted as true. -/
def scenarioUser1 : UserRecord :=
  ⟨"id1", "A", "a@x.com", SVal.digest 7 (SVal.str "p1"), true,
   some (SVal.digest 7 scenarioToken1)⟩

/-- The payload built by the scenario signin from the stored record. -/
def scenarioPayload2 : JwtPayload :=
  ⟨"id1", "A", "a@x.com", SVal.digest 7 (SVal.str "p1"), true⟩

/-- The token T2 issued by the scenario signin at time 5. -/
def scenarioToken2 : SVal :=
  SVal.tok "id1" "A" "a@x.com" (SVal.digest 7 (SVal.str "p1")) true 5 105
    "secret"

/-- The stored record after the scenario signin: its token field holds
the bcrypt digest of T2. -/
def scenarioUser2 : UserRecord :=
  { scenarioUser1 with token := some (SVal.digest 7 scenarioToken2) }

/-- C4: for every payload P, signing key K and lifetime L, verifying the
token produced by issue(P, K, L) with the same key K returns P unchanged
at any time strictly before L has elapsed since issuance, and fails with
Expired at any time after L has elapsed. -/
theorem verify_of_issue_roundtrip_and_expiry (K : String) (L iat t : Nat)
    (p : JwtPayload) :
    (t < iat + L →
      JwtService.verifyAccess ⟨K, L⟩ (JwtService.generateTokens ⟨K, L⟩ p iat) t
        = Except.ok p) ∧
    (iat + L < t →
      JwtService.verifyAccess ⟨K, L⟩ (JwtService.generateTokens ⟨K, L⟩ p iat) t
        = Except.error JwtError.expired) := by
  constructor
  · intro h
    have hnot : ¬ (iat + L ≤ t) := by omega
    simp [JwtService.verifyAccess, JwtService.generateTokens, jwtSign,
      jwtVerify, hnot]
  · intro h
    have hle : iat + L ≤ t := by omega
    simp [JwtService.verifyAccess, JwtService.generateTokens, jwtSign,
      jwtVerify, hle]

/-- Witness for C4: a roundtrip inside the lifetime and an expiry after
it, at concrete inputs. -/
theorem verify_of_issue_roundtrip_and_expiry_witness :
    JwtService.verifyAccess ⟨"k", 10⟩
        (JwtService.generateTokens ⟨"k", 10⟩ ⟨"u", "n", "e", SVal.str "h", true⟩ 0) 3
      = Except.ok ⟨"u", "n", "e", SVal.str "h", true⟩ ∧
    JwtService.verifyAccess ⟨"k", 10⟩
        (JwtService.generateTokens ⟨"k", 10⟩ ⟨"u", "n", "e", SVal.str "h", true⟩ 0) 11
      = Except.error JwtError.expired :=
  ⟨(verify_of_issue_roundtrip_and_expiry "k" 10 0 3 ⟨"u", "n", "e", SVal.str "h", true⟩).1
     (by decide),
   (verify_of_issue_roundtrip_and_expiry "k" 10 0 11 ⟨"u", "n", "e", SVal.str "h", true⟩).2
     (by decide)⟩

/-- C5: for every plaintext password p, verify(p, hash(p)) is true for
the hasher used at signup (cost 7) and the comparison used at signin;
and for p1 ≠ p2, verify(p1, hash(p2)) is false. -/
theorem password_hash_verify (p1 p2 : String) :
    bcryptCompareSync (SVal.str p1) (bcryptHashSync (SVal.str p1) 7) = true ∧
    (p1 ≠ p2 →
      bcryptCompareSync (SVal.str p1) (bcryptHashSync (SVal.str p2) 7) = false) := by
  constructor
  · simp [bcryptCompareSync, bcryptHashSync]
  · intro h
    simp only [bcryptCompareSync, bcryptHashSync, beq_eq_false_iff_ne, ne_eq]
    exact fun hh => h (SVal.str.inj hh).symm

/-- Witness for C5 at the concrete passwords "a" and "b". -/
theorem password_hash_verify_witness :
    bcryptCompareSync (SVal.str "a") (bcryptHashSync (SVal.str "a") 7) = true ∧
    bcryptCompareSync (SVal.str "a") (bcryptHashSync (SVal.str "b") 7) = false :=
  ⟨(password_hash_verify "a" "b").1,
   (password_hash_verify "a" "b").2 (by decide)⟩

/-- C1 (failing input): the section 8 session scenario.  Signup stores
the bcrypt digest of the issued token; signin at time 5 issues T2 and
stores its digest; but logout looks the record up by equality of the
stored field with the RAW cookie token, and the digest never equals the
token, so the very first logout presenting T2 is answered 400
InvalidToken and the record keeps its active flag and token digest —
the code never reaches the 200 path the claim (and the spec scenario)
describes. -/
theorem logout_with_issued_token_is_rejected :
    signUp [] ⟨"A", "a@x.com", "p1", false⟩ "id1" scenarioSvc 0
      = ([scenarioUser1],
         SignUpResult.ok ⟨"id1", "A", "a@x.com", SVal.str "p1", false⟩
           scenarioToken1) ∧
    signIn [scenarioUser1] ⟨"a@x.com", "p1"⟩ scenarioSvc 5
      = ([scenarioUser2], SignInResult.ok scenarioPayload2 scenarioToken2) ∧
    logout [scenarioUser2] (some scenarioToken2)
      = ([scenarioUser2], LogoutResult.invalidToken) ∧
    LogoutResult.invalidToken.status = 400 := by
  decide

/-- C6: signup with an email already present in the store under
case-insensitive comparison answers 403 Conflict and leaves the store
unchanged, whatever the password and name.  The first hypothesis is the
store invariant that persisted emails are lowercased (the mongoose
`lowercase: true` setter guarantees it for every record this application
writes). -/
theorem signup_conflict_on_duplicate_email
    (db : List UserRecord) (body : SignupBody) (freshId : String)
    (svc : JwtService) (now : Nat)
    (hlow : ∀ u ∈ db, lowerStr u.email = u.email)
    (hdup : ∃ u ∈ db, lowerStr u.email = lowerStr body.email) :
    signUp db body freshId svc now = (db, SignUpResult.conflict) ∧
    SignUpResult.conflict.status = 403 := by
  obtain ⟨u, hu, he⟩ := hdup
  refine ⟨?_, rfl⟩
  have hne : findOneEmail db body.email ≠ none := by
    intro hnone
    have hall := List.find?_eq_none.mp hnone u hu
    rw [beq_iff_eq, ← hlow u hu, he] at hall
    exact hall rfl
  unfold signUp
  cases hcase : findOneEmail db body.email with
  | none => exact absurd hcase hne
  | some w => rfl

/-- Witness for C6: a second signup whose email differs from the stored
record's only in case is answered 403 Conflict. -/
theorem signup_conflict_on_duplicate_email_witness :
    signUp [⟨"u1", "N", "a@x.com", SVal.digest 7 (SVal.str "q"), true, none⟩]
        ⟨"M", "A@X.com", "z", true⟩ "u2" ⟨"k", 10⟩ 0
      = ([⟨"u1", "N", "a@x.com", SVal.digest 7 (SVal.str "q"), true, none⟩],
         SignUpResult.conflict) ∧
    SignUpResult.conflict.status = 403 :=
  signup_conflict_on_duplicate_email
    [⟨"u1", "N", "a@x.com", SVal.digest 7 (SVal.str "q"), true, none⟩]
    ⟨"M", "A@X.com", "z", true⟩ "u2" ⟨"k", 10⟩ 0
    (by decide) (by decide)

/-- C7: signin answers 404 when no record matches the email and 400 when
the password does not verify against the stored digest; in both cases no
token is issued (the failing outcomes carry none) and the store — hence
the record's token field and active flag — is unchanged. -/
theorem signin_failure_cases (db : List UserRecord) (body : SigninBody)
    (svc : JwtService) (now : Nat) :
    (findOneEmail db body.email = none →
      signIn db body svc now = (db, SignInResult.notFound) ∧
      SignInResult.notFound.status = 404) ∧
    (∀ u, findOneEmail db body.email = some u →
      bcryptCompareSync (SVal.str body.password) u.password = false →
      signIn db body svc now = (db, SignInResult.badPassword) ∧
      SignInResult.badPassword.status = 400) := by
  constructor
  · intro h
    refine ⟨?_, rfl⟩
    unfold signIn
    rw [h]
  · intro u hu hcmp
    refine ⟨?_, rfl⟩
    simp [signIn, hu, hcmp]

/-- Witness for C7: signin against an empty store (404) and signin with
a wrong password against a stored record (400). -/
theorem signin_failure_cases_witness :
    (signIn [] ⟨"a@x.com", "p"⟩ ⟨"k", 10⟩ 0 = ([], SignInResult.notFound) ∧
      SignInResult.notFound.status = 404) ∧
    (signIn [⟨"u1", "N", "a@x.com", SVal.digest 7 (SVal.str "p"), true, none⟩]
        ⟨"a@x.com", "bad"⟩ ⟨"k", 10⟩ 0
      = ([⟨"u1", "N", "a@x.com", SVal.digest 7 (SVal.str "p"), true, none⟩],
         SignInResult.badPassword) ∧
      SignInResult.badPassword.status = 400) :=
  ⟨(signin_failure_cases [] ⟨"a@x.com", "p"⟩ ⟨"k", 10⟩ 0).1 (by decide),
   (signin_failure_cases
      [⟨"u1", "N", "a@x.com", SVal.digest 7 (SVal.str "p"), true, none⟩]
      ⟨"a@x.com", "bad"⟩ ⟨"k", 10⟩ 0).2
     ⟨"u1", "N", "a@x.com", SVal.digest 7 (SVal.str "p"), true, none⟩
     (by decide) (by decide)⟩

/-- C9: a successful signup persists the record with is_active true,
while the payload returned to the caller and embedded in the issued
token carries the request-supplied is_active; when the request did not
pass is_active true (the validator default is false) the two flags
differ. -/
theorem signup_persists_active_but_echoes_request_flag
    (db : List UserRecord) (body : SignupBody) (freshId : String)
    (svc : JwtService) (now : Nat)
    (h : findOneEmail db body.email = none) :
    ∃ rec payload token,
      signUp db body freshId svc now = (db ++ [rec], SignUpResult.ok payload token) ∧
      rec.is_active = true ∧
      payload.is_active = body.is_active ∧
      token = jwtSign payload svc.tokenKey now (now + svc.tokenTime) ∧
      (body.is_active = false → payload.is_active ≠ rec.is_active) := by
  refine ⟨{ _id := freshId, full_name := body.full_name,
            email := lowerStr body.email,
            password := bcryptHashSync (SVal.str body.password) 7,
            is_active := true,
            token := some (bcryptHashSync
              (jwtSign ⟨freshId, body.full_name, body.email,
                 SVal.str body.password, body.is_active⟩
                svc.tokenKey now (now + svc.tokenTime)) 7) },
          ⟨freshId, body.full_name, body.email, SVal.str body.password,
            body.is_active⟩,
          jwtSign ⟨freshId, body.full_name, body.email,
              SVal.str body.password, body.is_active⟩
            svc.tokenKey now (now + svc.tokenTime),
          ?_, rfl, rfl, rfl, ?_⟩
  · unfold signUp
    rw [h]
    rfl
  · intro hb
    simp [hb]

/-- Witness for C9: a concrete signup with the defaulted is_active
false. -/
theorem signup_persists_active_but_echoes_request_flag_witness :
    ∃ rec payload token,
      signUp [] ⟨"A", "a@x.com", "p", false⟩ "id1" ⟨"k", 10⟩ 0
        = ([] ++ [rec], SignUpResult.ok payload token) ∧
      rec.is_active = true ∧
      payload.is_active = false ∧
      token = jwtSign payload "k" 0 (0 + 10) ∧
      (false = false → payload.is_active ≠ rec.is_active) :=
  signup_persists_active_but_echoes_request_flag []
    ⟨"A", "a@x.com", "p", false⟩ "id1" ⟨"k", 10⟩ 0 (by decide)

/-- C2: a PUT or DELETE request on /user/:id whose bearer token verifies
but whose payload id differs from the path id is answered 403 by the
gate and `next()` is never invoked, whatever the rest of the request. -/
theorem gate_forbids_foreign_id
    (req : AuthRequest) (svc : JwtService) (now : Nat) (words : List SVal)
    (t : SVal) (decoded : JwtPayload)
    (hm : req.method = "PUT" ∨ req.method = "DELETE")
    (ha : req.authorization = some words)
    (ht : words[1]? = some t)
    (hv : svc.verifyAccess t now = Except.ok decoded)
    (hid : decoded.id ≠ req.paramsId) :
    (userPolice req svc now).status = 403 ∧
    (userPolice req svc now).nextInvoked = false := by
  have hopt : (req.method == "OPTIONS") = false := by
    rcases hm with h | h <;> simp [h]
  have hfalsy : jsFalsy (some t) = false := by
    cases t with
    | str s => exfalso; simp [JwtService.verifyAccess, jwtVerify] at hv
    | tok id fn em pw act iat exp k => rfl
    | digest c p => exfalso; simp [JwtService.verifyAccess, jwtVerify] at hv
  have htry : userPoliceTry req svc now false
      = Except.ok ⟨403, "Error: the JWT is not owned by the admin",
                   some decoded, false⟩ := by
    unfold userPoliceTry
    rw [ha]
    simp [ht, hfalsy, verifyTokenVar, hv, hid]
  simp [userPolice, hopt, htry]

/-- Witness for C2: a verified token for id u1 presented on a PUT to
/user/u2. -/
theorem gate_forbids_foreign_id_witness :
    (userPolice
      ⟨"PUT",
       some [SVal.str "Bearer",
             SVal.tok "u1" "n" "e" (SVal.str "h") true 0 100 "k"], "u2"⟩
      ⟨"k", 10⟩ 0).status = 403 ∧
    (userPolice
      ⟨"PUT",
       some [SVal.str "Bearer",
             SVal.tok "u1" "n" "e" (SVal.str "h") true 0 100 "k"], "u2"⟩
      ⟨"k", 10⟩ 0).nextInvoked = false :=
  gate_forbids_foreign_id
    ⟨"PUT",
     some [SVal.str "Bearer",
           SVal.tok "u1" "n" "e" (SVal.str "h") true 0 100 "k"], "u2"⟩
    ⟨"k", 10⟩ 0
    [SVal.str "Bearer", SVal.tok "u1" "n" "e" (SVal.str "h") true 0 100 "k"]
    (SVal.tok "u1" "n" "e" (SVal.str "h") true 0 100 "k")
    ⟨"u1", "n", "e", SVal.str "h", true⟩
    (Or.inl rfl) rfl rfl rfl (by decide)

/-- C3 counterexample: a cryptographically valid token presented under
the wrong scheme "Basic" is NOT rejected — the gate verifies it and,
since the embedded id matches the path id, attaches the identity and
invokes `next()`, contradicting the claim that a wrong-scheme header is
always rejected. -/
theorem wrong_scheme_valid_token_passes_gate :
    userPolice
      ⟨"PUT",
       some [SVal.str "Basic",
             SVal.tok "u1" "n" "e" (SVal.str "h") true 0 100 "k"], "u1"⟩
      ⟨"k", 10⟩ 0
    = ⟨0, "", some ⟨"u1", "n", "e", SVal.str "h", true⟩, true⟩ := by
  decide

/-- C3 amended: an absent header, a header with no second word (bare
scheme or bare token), or a second word that fails verification is
answered 403 with no identity attached and `next()` not invoked (for the
non-OPTIONS methods the route mounts the gate on); a valid token under a
wrong scheme, by contrast, reaches verification. -/
theorem gate_rejects_absent_or_tokenless_or_unverified
    (req : AuthRequest) (svc : JwtService) (now : Nat)
    (hm : req.method ≠ "OPTIONS")
    (hbad : req.authorization = none ∨
      (∃ words, req.authorization = some words ∧ words[1]? = none) ∨
      (∃ words t e, req.authorization = some words ∧ words[1]? = some t ∧
        svc.verifyAccess t now = Except.error e)) :
    (userPolice req svc now).status = 403 ∧
    (userPolice req svc now).attachedUser = none ∧
    (userPolice req svc now).nextInvoked = false := by
  have hopt : (req.method == "OPTIONS") = false := by simp [hm]
  rcases hbad with ha | ⟨words, ha, ht⟩ | ⟨words, t, e, ha, ht, hv⟩
  · simp [userPolice, userPoliceTry, ha, hopt]
  · by_cases hb : words.head?.getD (SVal.str "") = SVal.str "Bearer"
    · simp [userPolice, userPoliceTry, ha, ht, hb, hopt, jsFalsy]
    · simp [userPolice, userPoliceTry, ha, ht, hb, hopt, jsFalsy,
        verifyTokenVar, readErrVar, Except.bind]
  · by_cases ht0 : t = SVal.str ""
    · subst ht0
      by_cases hb : words.head?.getD (SVal.str "") = SVal.str "Bearer"
      · simp [userPolice, userPoliceTry, ha, ht, hb, hopt, jsFalsy]
      · simp [userPolice, userPoliceTry, ha, ht, hb, hopt, jsFalsy,
          verifyTokenVar, jwtVerify, JwtService.verifyAccess,
          readErrVar, Except.bind]
    · have hf : jsFalsy (some t) = false := by
        cases t with
        | str s =>
            have hs : s ≠ "" := fun h => ht0 (by rw [h])
            simp [jsFalsy, hs]
        | tok id fn em pw act iat exp k => rfl
        | digest c p => rfl
      simp [userPolice, userPoliceTry, ha, ht, hf, hopt,
        verifyTokenVar, hv, readErrVar, Except.bind]

/-- Witness for the amended C3: an absent header on a PUT request. -/
theorem gate_rejects_absent_or_tokenless_or_unverified_witness :
    (userPolice ⟨"PUT", none, "u1"⟩ ⟨"k", 10⟩ 0).status = 403 ∧
    (userPolice ⟨"PUT", none, "u1"⟩ ⟨"k", 10⟩ 0).attachedUser = none ∧
    (userPolice ⟨"PUT", none, "u1"⟩ ⟨"k", 10⟩ 0).nextInvoked = false :=
  gate_rejects_absent_or_tokenless_or_unverified
    ⟨"PUT", none, "u1"⟩ ⟨"k", 10⟩ 0 (by decide) (Or.inl rfl)

/-- Every response the try block returns without raising has status 403
or 0 (pass-through): the literal 400 response sits behind the read of
the undeclared `err`, which raises instead of returning. -/
theorem userPoliceTry_ok_status (req : AuthRequest) (svc : JwtService)
    (now : Nat) (opt : Bool) (r : GateResult)
    (h : userPoliceTry req svc now opt = Except.ok r) :
    r.status = 403 ∨ r.status = 0 := by
  unfold userPoliceTry at h
  split at h
  · cases h
    exact Or.inl rfl
  · split at h
    · cases h
      exact Or.inl rfl
    · split at h
      · simp [readErrVar, Except.bind] at h
      · split at h
        · cases h
          exact Or.inl rfl
        · cases h
          exact Or.inr rfl

/-- C10: the 400 branch of the gate is unreachable as written — its body
reads the undefined variable `err`, which raises — so no request is ever
answered 400 by the gate and a request whose extracted token fails
verification (and is not short-circuited by the bare-Bearer check) gets
the catch-all 403 `{message: "User is unauthorized"}`. -/
theorem verify_error_yields_catchall_403 (svc : JwtService) (now : Nat) :
    (∀ req : AuthRequest, (userPolice req svc now).status ≠ 400) ∧
    (∀ (req : AuthRequest) (words : List SVal) (t : SVal) (e : JwtError),
      req.authorization = some words → words[1]? = some t →
      svc.verifyAccess t now = Except.error e →
      jsFalsy (some t) = false →
      userPolice req svc now
        = ⟨403, "User is unauthorized", none, req.method == "OPTIONS"⟩) := by
  constructor
  · intro req
    unfold userPolice
    cases htry : userPoliceTry req svc now (req.method == "OPTIONS") with
    | error e => simp
    | ok r =>
        rcases userPoliceTry_ok_status req svc now (req.method == "OPTIONS") r htry
          with h3 | h0
        · simp [h3]
        · simp [h0]
  · intro req words t e ha ht hv hf
    have htry : userPoliceTry req svc now (req.method == "OPTIONS")
        = Except.error (JsError.referenceError "err") := by
      unfold userPoliceTry
      rw [ha]
      simp [ht, hf, verifyTokenVar, hv, readErrVar, Except.bind]
    simp [userPolice, htry]

/-- Witness for C10: a Bearer header whose token is garbage — the gate
answers the catch-all 403, not 400. -/
theorem verify_error_yields_catchall_403_witness :
    (userPolice ⟨"PUT", some [SVal.str "Bearer", SVal.str "garbage"], "u"⟩
        ⟨"k", 10⟩ 0).status ≠ 400 ∧
    userPolice ⟨"PUT", some [SVal.str "Bearer", SVal.str "garbage"], "u"⟩
        ⟨"k", 10⟩ 0
      = ⟨403, "User is unauthorized", none, false⟩ := by
  constructor
  · exact (verify_error_yields_catchall_403 ⟨"k", 10⟩ 0).1
      ⟨"PUT", some [SVal.str "Bearer", SVal.str "garbage"], "u"⟩
  · have h := (verify_error_yields_catchall_403 ⟨"k", 10⟩ 0).2
      ⟨"PUT", some [SVal.str "Bearer", SVal.str "garbage"], "u"⟩
      [SVal.str "Bearer", SVal.str "garbage"] (SVal.str "garbage")
      JwtError.malformed rfl rfl rfl (by decide)
    simpa using h

/-- A value produced by a successful field conversion is well-typed for
that field. -/
theorem convertField_welltyped (f : JoiField) (v v1 : JVal)
    (h : convertField f v = Except.ok v1) : welltypedField f v1 = true := by
  obtain ⟨nm, jt, rq, em, tr, df⟩ := f
  cases jt <;> cases v
  · rename_i s
    simp only [convertField] at h
    generalize (if tr = true then trimStr s else s) = s1 at h
    split at h
    · exact absurd h (by simp)
    · split at h
      · exact absurd h (by simp)
      · rename_i hs0 hem
        have hv1 := Except.ok.inj h
        subst hv1
        simp only [welltypedField, Bool.and_eq_true]
        refine ⟨by simpa using hs0, ?_⟩
        rcases Bool.eq_false_or_eq_true em with hemt | hemf
        · subst hemt
          simp at hem
          simp [hem]
        · simp [hemf]
  · simp only [convertField] at h
    exact absurd h (by simp)
  · simp only [convertField] at h
    exact absurd h (by simp)
  · rename_i s
    simp only [convertField] at h
    split at h
    · have hv1 := Except.ok.inj h
      subst hv1
      rfl
    · split at h
      · have hv1 := Except.ok.inj h
        subst hv1
        rfl
      · exact absurd h (by simp)
  · rename_i b
    simp only [convertField] at h
    have hv1 := Except.ok.inj h
    subst hv1
    rfl
  · simp only [convertField] at h
    exact absurd h (by simp)

/-- Unfolding lemma for body lookup on a cons cell. -/
theorem lookupJ_cons (k1 : String) (w1 : JVal) (rest : JBody) (k : String) :
    lookupJ ((k1, w1) :: rest) k
      = if k1 = k then some w1 else lookupJ rest k := by
  by_cases hk : k1 = k
  · subst hk
    simp [lookupJ, List.find?]
  · have hb : (k1 == k) = false := by simp [hk]
    simp [lookupJ, List.find?, hb, hk]

/-- A successful body lookup names an entry of the body. -/
theorem lookupJ_eq_some (body : JBody) (k : String) (w : JVal)
    (h : lookupJ body k = some w) : ∃ kv ∈ body, kv.1 = k ∧ kv.2 = w := by
  unfold lookupJ at h
  cases hf : body.find? (fun kv => kv.1 == k) with
  | none => rw [hf] at h; exact absurd h (by simp)
  | some kv =>
      rw [hf] at h
      refine ⟨kv, List.mem_of_find?_eq_some hf, ?_, ?_⟩
      · simpa using List.find?_some hf
      · simpa using h

/-- Every key of a validated body is a declared field name. -/
theorem validateFields_keys (fields : List JoiField) (body v : JBody)
    (h : validateFields fields body = Except.ok v) :
    ∀ kv ∈ v, kv.1 ∈ fields.map (fun f => f.name) := by
  induction fields generalizing v with
  | nil =>
      have hv := Except.ok.inj h
      subst hv
      intro kv hkv
      exact absurd hkv (by simp)
  | cons f rest ih =>
      unfold validateFields at h
      split at h
      · rename_i w hl
        cases hc : convertField f w with
        | error e => rw [hc] at h; simp [Except.bind] at h
        | ok w1 =>
            rw [hc] at h
            cases htl : validateFields rest body with
            | error e => rw [htl] at h; simp [Except.bind, Except.map] at h
            | ok tail =>
                rw [htl] at h
                simp only [Except.bind, Except.map, Except.ok.injEq] at h
                subst h
                intro kv hkv
                rcases List.mem_cons.mp hkv with hkv1 | hkv2
                · subst hkv1
                  simp
                · simp only [List.map_cons]
                  exact List.mem_cons_of_mem _ (ih tail htl kv hkv2)
      · rename_i hl
        split at h
        · rename_i d hd
          cases htl : validateFields rest body with
          | error e => rw [htl] at h; simp [Except.map] at h
          | ok tail =>
              rw [htl] at h
              simp only [Except.map, Except.ok.injEq] at h
              subst h
              intro kv hkv
              rcases List.mem_cons.mp hkv with hkv1 | hkv2
              · subst hkv1
                simp
              · simp only [List.map_cons]
                exact List.mem_cons_of_mem _ (ih tail htl kv hkv2)
        · rename_i hd
          split at h
          · simp at h
          · intro kv hkv
            simp only [List.map_cons]
            exact List.mem_cons_of_mem _ (ih v h kv hkv)

/-- Each declared field of a validated body is present and well-typed
when required or defaulted, and absent only when optional.  Field names
must be distinct (true of every registered schema) and every declared
default well-typed. -/
theorem validateFields_conforms (fields : List JoiField) (body v : JBody)
    (hnd : (fields.map (fun f => f.name)).Nodup)
    (hdf : ∀ f ∈ fields, (f.dflt.all fun d => welltypedField f d) = true)
    (h : validateFields fields body = Except.ok v) :
    ∀ f ∈ fields,
      (match lookupJ v f.name with
       | some w => welltypedField f w
       | none => !f.required) = true := by
  induction fields generalizing v with
  | nil =>
      intro f hf
      exact absurd hf (by simp)
  | cons f0 rest ih =>
      have hnd1 : (∀ x ∈ rest, ¬x.name = f0.name) ∧
          (rest.map (fun f => f.name)).Nodup := by simpa using hnd
      have hnd0 : f0.name ∉ rest.map (fun f => f.name) := by
        intro hmem
        obtain ⟨x, hx, hxe⟩ := List.mem_map.mp hmem
        exact hnd1.1 x hx hxe
      have hndr : (rest.map (fun f => f.name)).Nodup := hnd1.2
      have hdfr : ∀ f ∈ rest, (f.dflt.all fun d => welltypedField f d) = true :=
        fun g hg => hdf g (List.mem_cons_of_mem _ hg)
      unfold validateFields at h
      split at h
      · rename_i w hl
        cases hc : convertField f0 w with
        | error e => rw [hc] at h; simp [Except.bind] at h
        | ok w1 =>
            rw [hc] at h
            cases htl : validateFields rest body with
            | error e => rw [htl] at h; simp [Except.bind, Except.map] at h
            | ok tail =>
                rw [htl] at h
                simp only [Except.bind, Except.map, Except.ok.injEq] at h
                subst h
                intro f hf
                rcases List.mem_cons.mp hf with hf0 | hfr
                · subst hf0
                  rw [lookupJ_cons, if_pos rfl]
                  exact convertField_welltyped f w w1 hc
                · rw [lookupJ_cons]
                  have hne : f0.name ≠ f.name := by
                    intro he
                    exact hnd0 (he ▸ List.mem_map_of_mem _ hfr)
                  rw [if_neg hne]
                  exact ih tail hndr hdfr htl f hfr
      · rename_i hl
        split at h
        · rename_i d hd
          cases htl : validateFields rest body with
          | error e => rw [htl] at h; simp [Except.map] at h
          | ok tail =>
              rw [htl] at h
              simp only [Except.map, Except.ok.injEq] at h
              subst h
              intro f hf
              rcases List.mem_cons.mp hf with hf0 | hfr
              · subst hf0
                rw [lookupJ_cons, if_pos rfl]
                have hwd := hdf f (List.mem_cons_self f rest)
                rw [hd] at hwd
                simpa [Option.all] using hwd
              · rw [lookupJ_cons]
                have hne : f0.name ≠ f.name := by
                  intro he
                  exact hnd0 (he ▸ List.mem_map_of_mem _ hfr)
                rw [if_neg hne]
                exact ih tail hndr hdfr htl f hfr
        · rename_i hd
          split at h
          · simp at h
          · rename_i hr
            intro f hf
            rcases List.mem_cons.mp hf with hf0 | hfr
            · subst hf0
              cases hlv : lookupJ v f.name with
              | some w =>
                  obtain ⟨kv, hkv, hk1, hk2⟩ := lookupJ_eq_some v f.name w hlv
                  have hmem := validateFields_keys rest body v h kv hkv
                  rw [hk1] at hmem
                  exact absurd hmem hnd0
              | none =>
                  have hreq : f.required = false := by
                    rcases Bool.eq_false_or_eq_true f.required with h1 | h1
                    · exact absurd h1 hr
                    · exact h1
                  simp [hreq]
            · exact ih v hndr hdfr h f hfr

/-- A declared field absent from the body and carrying a default is
present in the validated body with exactly the default value. -/
theorem validateFields_default (fields : List JoiField) (body v : JBody)
    (hnd : (fields.map (fun f => f.name)).Nodup)
    (h : validateFields fields body = Except.ok v) :
    ∀ f ∈ fields, lookupJ body f.name = none → ∀ d, f.dflt = some d →
      lookupJ v f.name = some d := by
  induction fields generalizing v with
  | nil =>
      intro f hf
      exact absurd hf (by simp)
  | cons f0 rest ih =>
      have hnd1 : (∀ x ∈ rest, ¬x.name = f0.name) ∧
          (rest.map (fun f => f.name)).Nodup := by simpa using hnd
      have hnd0 : f0.name ∉ rest.map (fun f => f.name) := by
        intro hmem
        obtain ⟨x, hx, hxe⟩ := List.mem_map.mp hmem
        exact hnd1.1 x hx hxe
      have hndr : (rest.map (fun f => f.name)).Nodup := hnd1.2
      unfold validateFields at h
      split at h
      · rename_i w hl
        cases hc : convertField f0 w with
        | error e => rw [hc] at h; simp [Except.bind] at h
        | ok w1 =>
            rw [hc] at h
            cases htl : validateFields rest body with
            | error e => rw [htl] at h; simp [Except.bind, Except.map] at h
            | ok tail =>
                rw [htl] at h
                simp only [Except.bind, Except.map, Except.ok.injEq] at h
                subst h
                intro f hf habs d hd
                rcases List.mem_cons.mp hf with hf0 | hfr
                · subst hf0
                  rw [habs] at hl
                  exact absurd hl (by simp)
                · rw [lookupJ_cons]
                  have hne : f0.name ≠ f.name := by
                    intro he
                    exact hnd0 (he ▸ List.mem_map_of_mem _ hfr)
                  rw [if_neg hne]
                  exact ih tail hndr htl f hfr habs d hd
      · rename_i hl
        split at h
        · rename_i d0 hd0
          cases htl : validateFields rest body with
          | error e => rw [htl] at h; simp [Except.map] at h
          | ok tail =>
              rw [htl] at h
              simp only [Except.map, Except.ok.injEq] at h
              subst h
              intro f hf habs d hd
              rcases List.mem_cons.mp hf with hf0 | hfr
              · subst hf0
                rw [lookupJ_cons, if_pos rfl]
                rw [hd0] at hd
                exact congrArg some (Option.some.inj hd)
              · rw [lookupJ_cons]
                have hne : f0.name ≠ f.name := by
                  intro he
                  exact hnd0 (he ▸ List.mem_map_of_mem _ hfr)
                rw [if_neg hne]
                exact ih tail hndr htl f hfr habs d hd
        · rename_i hd0
          split at h
          · simp at h
          · intro f hf habs d hd
            rcases List.mem_cons.mp hf with hf0 | hfr
            · subst hf0
              rw [hd0] at hd
              exact absurd hd (by simp)
            · exact ih v hndr h f hfr habs d hd

/-- A body accepted by a schema whose field names are distinct and whose
defaults are well-typed conforms to the schema. -/
theorem joiValidate_ok_conforms (schema : JoiSchema) (body v : JBody)
    (hnd : (schema.map (fun f => f.name)).Nodup)
    (hdf : ∀ f ∈ schema, (f.dflt.all fun d => welltypedField f d) = true)
    (h : joiValidate schema body = Except.ok v) :
    conformsTo schema v = true := by
  unfold joiValidate at h
  cases hf : body.find?
      (fun kv => !(schema.map (fun f => f.name)).contains kv.1) with
  | some kv => rw [hf] at h; exact absurd h (by simp)
  | none =>
      rw [hf] at h
      unfold conformsTo
      rw [Bool.and_eq_true]
      constructor
      · rw [List.all_eq_true]
        intro kv hkv
        have hmem := validateFields_keys schema body v h kv hkv
        exact List.elem_iff.mpr hmem
      · rw [List.all_eq_true]
        intro f hfm
        exact validateFields_conforms schema body v hnd hdf h f hfm

/-- Every schema in the registry has distinct field names and well-typed
defaults. -/
theorem lookupSchema_registry (name : String) (schema : JoiSchema)
    (h : lookupSchema name = some schema) :
    (schema.map (fun f => f.name)).Nodup ∧
    (∀ f ∈ schema, (f.dflt.all fun d => welltypedField f d) = true) := by
  unfold lookupSchema at h
  cases hf : Validators.find? (fun kv => kv.1 == name) with
  | none => rw [hf] at h; exact absurd h (by simp)
  | some kv =>
      rw [hf] at h
      have hs : kv.2 = schema := Option.some.inj h
      subst hs
      have hmem := List.mem_of_find?_eq_some hf
      have hcases : kv = ("signup", signupSchema) ∨ kv = ("login", loginSchema) ∨
          kv = ("update", updateSchema) ∨
          kv = ("createProduct", createProductSchema) ∨
          kv = ("updateProduct", updateProductSchema) := by
        simpa [Validators] using hmem
      rcases hcases with h1 | h1 | h1 | h1 | h1 <;> subst h1 <;>
        exact ⟨by decide, by decide⟩

/-- C8: for every registered schema key, the validator middleware
answers 400 with the joi error when the body does not conform, and
otherwise replaces the body with the validated value, which conforms to
the schema (so the handler only ever sees a validated body); on the
signup schema a missing is_active is defaulted to false in the value the
handler sees. -/
theorem validator_gate (name : String) (schema : JoiSchema) (body : JBody)
    (hs : lookupSchema name = some schema) :
    (∀ e, joiValidate schema body = Except.error e →
      validatorMiddleware name body = some (VmResult.validationError e) ∧
      (VmResult.validationError e).status = 400) ∧
    (∀ v, joiValidate schema body = Except.ok v →
      validatorMiddleware name body = some (VmResult.next v) ∧
      conformsTo schema v = true) ∧
    (name = "signup" → lookupJ body "is_active" = none →
      ∀ v, joiValidate schema body = Except.ok v →
      lookupJ v "is_active" = some (JVal.bool false)) := by
  refine ⟨?_, ?_, ?_⟩
  · intro e he
    refine ⟨?_, rfl⟩
    simp [validatorMiddleware, hs, he, JoiError.isJoi]
  · intro v hv
    refine ⟨?_, ?_⟩
    · simp [validatorMiddleware, hs, hv]
    · obtain ⟨hnd, hdf⟩ := lookupSchema_registry name schema hs
      exact joiValidate_ok_conforms schema body v hnd hdf hv
  · intro hn habs v hv
    subst hn
    have hss : schema = signupSchema := by
      have hlk : lookupSchema "signup" = some signupSchema := rfl
      rw [hlk] at hs
      exact (Option.some.inj hs).symm
    subst hss
    unfold joiValidate at hv
    cases hf : body.find?
        (fun kv => !(signupSchema.map (fun f => f.name)).contains kv.1) with
    | some kv => rw [hf] at hv; exact absurd hv (by simp)
    | none =>
        rw [hf] at hv
        exact validateFields_default signupSchema body v (by decide) hv
          ⟨"is_active", JType.boolean, false, false, false,
            some (JVal.bool false)⟩
          (by simp [signupSchema]) habs (JVal.bool false) rfl

/-- Witness for C8 on the signup schema: a body missing the required
password is answered 400; a conforming body is passed through with the
is_active default filled in. -/
theorem validator_gate_witness :
    (validatorMiddleware "signup"
        [("full_name", JVal.str "A"), ("email", JVal.str "a@x.com")]
      = some (VmResult.validationError (JoiError.missingRequired "password")) ∧
     (VmResult.validationError (JoiError.missingRequired "password")).status
       = 400) ∧
    (validatorMiddleware "signup"
        [("full_name", JVal.str "A"), ("email", JVal.str "a@x.com"),
         ("password", JVal.str "p")]
      = some (VmResult.next
          [("full_name", JVal.str "A"), ("email", JVal.str "a@x.com"),
           ("password", JVal.str "p"), ("is_active", JVal.bool false)]) ∧
     conformsTo signupSchema
        [("full_name", JVal.str "A"), ("email", JVal.str "a@x.com"),
         ("password", JVal.str "p"), ("is_active", JVal.bool false)] = true) ∧
    lookupJ
        [("full_name", JVal.str "A"), ("email", JVal.str "a@x.com"),
         ("password", JVal.str "p"), ("is_active", JVal.bool false)]
        "is_active"
      = some (JVal.bool false) :=
  ⟨(validator_gate "signup" signupSchema
      [("full_name", JVal.str "A"), ("email", JVal.str "a@x.com")] rfl).1
      (JoiError.missingRequired "password") rfl,
   (validator_gate "signup" signupSchema
      [("full_name", JVal.str "A"), ("email", JVal.str "a@x.com"),
       ("password", JVal.str "p")] rfl).2.1
      [("full_name", JVal.str "A"), ("email", JVal.str "a@x.com"),
       ("password", JVal.str "p"), ("is_active", JVal.bool false)] rfl,
   (validator_gate "signup" signupSchema
      [("full_name", JVal.str "A"), ("email", JVal.str "a@x.com"),
       ("password", JVal.str "p")] rfl).2.2 rfl rfl
      [("full_name", JVal.str "A"), ("email", JVal.str "a@x.com"),
       ("password", JVal.str "p"), ("is_active", JVal.bool false)] rfl⟩
